import Mathlib

/-!
Verification development for the parallel N-body physics core of
CppSMFLGalaxySim: the ThreadPool task scheduler, the ParticleSystem
particle store, and the ParticleGalaxyMode physics stepper.

C++ `float` arithmetic is embedded as exact rational arithmetic (`ℚ`);
a division whose divisor is zero — the source of IEEE NaN/∞ in this
code — is made explicit by returning `none` in an `Option`-valued
computation.  2-D vectors are pairs of rationals.
-/

/-- A 2-D vector, embedding `glm::vec2`. -/
abbrev Vec2 : Type := ℚ × ℚ

/-- Scalar multiplication of a `glm::vec2` by a `float`. -/
def smul (c : ℚ) (v : Vec2) : Vec2 := (c * v.1, c * v.2)

/-- `glm::dot` for 2-D vectors. -/
def dot (a b : Vec2) : ℚ := a.1 * b.1 + a.2 * b.2

/-- Componentwise division of a vector by a scalar (`vec / s` in glm).
Dividing by zero produces NaN/∞ components in IEEE arithmetic, which the
embedding represents as `none`. -/
def vdiv (v : Vec2) (s : ℚ) : Option Vec2 :=
  if s = 0 then none else some (v.1 / s, v.2 / s)

/-- Fuel-driven binary-digit integer square root, structurally recursive
so that the kernel can evaluate it on literals; `natSqrtAux_eq_sqrt`
shows it agrees with `Nat.sqrt` whenever the fuel is sufficient. -/
def natSqrtAux : ℕ → ℕ → ℕ
  | 0, _ => 0
  | fuel + 1, n =>
    if n = 0 then 0
    else
      let r := 2 * natSqrtAux fuel (n / 4)
      if (r + 1) * (r + 1) ≤ n then r + 1 else r

/-- Integer square root (equal to `Nat.sqrt` by `natSqrt_eq_sqrt`), but
evaluable by the kernel. -/
def natSqrt (n : ℕ) : ℕ := natSqrtAux n n

/-- Exact rational square root: on the square of a rational it returns
the exact nonnegative root (`ratSqrt_sq`); the development only ever
evaluates it at such points. -/
def ratSqrt (q : ℚ) : ℚ :=
  (natSqrt q.num.natAbs : ℚ) / (natSqrt q.den : ℚ)

namespace Core

/-- The lock-protected state of `Core::ThreadPool` that `Submit` touches:
the `stopping_` flag and the FIFO task queue `tasks_`.  Tasks are opaque
values of a type `τ` (the C++ queue stores type-erased closures). -/
structure ThreadPoolState (τ : Type) where
  stopping : Bool
  tasks : List τ

/-- `Core::ThreadPool::Submit` (ThreadPool.hpp): under the queue lock it
throws `std::runtime_error("Submit on stopped ThreadPool")` when
`stopping_` is set — before any mutation, so the state is returned
untouched — and otherwise enqueues the task at the back and returns the
future handle bound to it. -/
def Submit {τ : Type} (s : ThreadPoolState τ) (t : τ) :
    Except String τ × ThreadPoolState τ :=
  if s.stopping then (.error "Submit on stopped ThreadPool", s)
  else (.ok t, { s with tasks := s.tasks ++ [t] })

/-- The first action of `Core::ThreadPool::~ThreadPool`: set `stopping_`
under the queue lock (the subsequent notify/join does not change the
queue contents). -/
def destructorSignalStop {τ : Type} (s : ThreadPoolState τ) : ThreadPoolState τ :=
  { s with stopping := true }

end Core

namespace Graphics

/-- `Graphics::Particle` (ParticleSystem.hpp).  `colorA` is the alpha
channel of the `sf::Color color` member — the only color component the
physics-side update writes; the rgb channels are carried by the renderer
and never read or written by the code embedded here. -/
structure Particle where
  position : Vec2
  velocity : Vec2
  acceleration : Vec2
  colorA : ℕ
  size : ℚ
  lifetime : ℚ
  age : ℚ
  mass : ℚ
  active : Bool
deriving DecidableEq

/-- The C++ member initializers of `Graphics::Particle`. -/
def defaultParticle : Particle :=
  { position := ((0 : ℚ), (0 : ℚ)), velocity := ((0 : ℚ), (0 : ℚ))
    acceleration := ((0 : ℚ), (0 : ℚ)), colorA := 255, size := 1
    lifetime := 1, age := 0, mass := 1, active := true }

instance : Inhabited Particle := ⟨defaultParticle⟩

/-- `Graphics::ParticleSystem::EmitParticle`: `GetInactiveParticle` scans
`particles_` for the first slot with `!active` (`std::find_if`); when one
exists the template is copied into it, then `active = true` and
`age = 0.0f` are set; when every slot is active `GetInactiveParticle`
returns `nullptr` and nothing happens.  The C++ function returns `void`
(see `EmitParticleRetType`). -/
def EmitParticle (t : Particle) : List Particle → List Particle
  | [] => []
  | p :: ps =>
    if p.active then p :: EmitParticle t ps
    else { t with active := true, age := 0 } :: ps

/-- The return type of `Graphics::ParticleSystem::EmitParticle` in the
source, which is `void` — embedded as `Unit`. -/
def EmitParticleRetType : Type := Unit

/-- `Graphics::ParticleSystem::UpdateParticle`: age the particle and
deactivate it at end of life (returning early), otherwise apply
acceleration plus the system gravity, damping, integrate the position,
and fade the color alpha by the life ratio (the `sf::Uint8` cast
truncates toward zero, embedded as `Int.floor` on the nonnegative
in-range values this code produces). -/
def UpdateParticle (gravity : Vec2) (damping dt : ℚ) (p : Particle) : Particle :=
  let age2 := p.age + dt
  if age2 ≥ p.lifetime then { p with age := age2, active := false }
  else
    let v1 := p.velocity + smul dt (p.acceleration + gravity)
    let v2 := smul damping v1
    let pos2 := p.position + smul dt v2
    let lifeRatio := age2 / p.lifetime
    { p with age := age2, velocity := v2, position := pos2
             colorA := (255 * (1 - lifeRatio)).floor.toNat }

/-- `Graphics::ParticleSystem::Update`: apply `UpdateParticle` to every
active particle (inactive slots are skipped). -/
def particleSystemUpdate (gravity : Vec2) (damping dt : ℚ)
    (ps : List Particle) : List Particle :=
  ps.map fun p => if p.active then UpdateParticle gravity damping dt p else p

end Graphics

namespace Modes

/-- `Modes::CelestialBody` (ParticleGalaxyMode.hpp).  The `sf::Color`
member is render-only and never read by the physics code embedded here,
so it is omitted. -/
structure CelestialBody where
  position : Vec2
  velocity : Vec2
  mass : ℚ
  radius : ℚ
  trail : List Vec2
deriving DecidableEq

/-- Out-of-bounds placeholder for `List.getD`; every access below is in
bounds, so it is never read. -/
def defaultBody : CelestialBody :=
  { position := ((0 : ℚ), (0 : ℚ)), velocity := ((0 : ℚ), (0 : ℚ))
    mass := 1, radius := 1, trail := [] }

instance : Inhabited CelestialBody := ⟨defaultBody⟩

/-- `Modes::CelestialBody::MAX_TRAIL_LENGTH`. -/
def MAX_TRAIL_LENGTH : ℕ := 50

/-- The `constexpr float MIN_DISTANCE_SQ = 10.0f` floor inside
`CalculateGravitationalForce`. -/
def MIN_DISTANCE_SQ : ℚ := 10

/-- `glm::normalize(v)` = `v * inversesqrt(dot(v, v))` over exact real
arithmetic.  When `v` is the zero vector, `inversesqrt(0) = ∞` and
`0 * ∞` gives NaN components, embedded as `none`.  `ratSqrt` is exact at
every point where this development evaluates it (`ratSqrt_sq`). -/
def glmNormalize (v : Vec2) : Option Vec2 :=
  if dot v v = 0 then none
  else some (smul (1 / ratSqrt (dot v v)) v)

/-- `Modes::ParticleGalaxyMode::CalculateGravitationalForce`: direction
`pos2 - pos1`, squared distance floored at `MIN_DISTANCE_SQ` (so the
magnitude division is never by zero), inverse-square magnitude, and the
normalized direction scaled by the magnitude.  Note the normalization is
applied to the raw, unfloored direction vector. -/
def CalculateGravitationalForce (G : ℚ) (pos1 pos2 : Vec2) (m1 m2 : ℚ) :
    Option Vec2 :=
  let direction := pos2 - pos1
  let distanceSq := max (dot direction direction) MIN_DISTANCE_SQ
  let forceMagnitude := G * m1 * m2 / distanceSq
  (glmNormalize direction).map fun fd => smul forceMagnitude fd

/-- The trail bookkeeping inside `UpdatePhysics`: when trails are shown,
push the new position at the back and, if the trail now exceeds
`MAX_TRAIL_LENGTH`, erase the front (oldest) entry; when trails are
hidden the trail is untouched. -/
def updateTrail (showTrails : Bool) (trail : List Vec2) (pos : Vec2) :
    List Vec2 :=
  if showTrails then
    let t := trail ++ [pos]
    if t.length > MAX_TRAIL_LENGTH then t.tail else t
  else trail

/-- The inner loop of the body-body phase for body `i`: sum the
gravitational force from every other body `j ≠ i`, reading the current
(partially updated) body list. -/
def sumBodyForces (G : ℚ) (bs : List CelestialBody) (i : ℕ) : Option Vec2 :=
  (List.range bs.length).foldlM
    (fun acc j =>
      if j = i then some acc
      else
        (CalculateGravitationalForce G (bs.getD i defaultBody).position
            (bs.getD j defaultBody).position (bs.getD i defaultBody).mass
            (bs.getD j defaultBody).mass).map (fun f => acc + f))
    ((0 : ℚ), (0 : ℚ))

/-- One iteration of the body-body loop of `UpdatePhysics`: net force on
body `i`, acceleration by its own mass (`vdiv`: mass 0 would be a NaN),
explicit Euler integration of velocity then position, then the trail
update — all written back in place, so later bodies see body `i`'s new
position. -/
def stepOneBody (G dt : ℚ) (showTrails : Bool) (bs : List CelestialBody)
    (i : ℕ) : Option (List CelestialBody) := do
  let b := bs.getD i defaultBody
  let totalForce ← sumBodyForces G bs i
  let acceleration ← vdiv totalForce b.mass
  let v2 := b.velocity + smul dt acceleration
  let p2 := b.position + smul dt v2
  some (bs.set i { b with velocity := v2, position := p2
                          trail := updateTrail showTrails b.trail p2 })

/-- The serial body-body phase of `UpdatePhysics`: bodies are updated in
index order, in place. -/
def bodyPhase (G dt : ℚ) (showTrails : Bool) (bs : List CelestialBody) :
    Option (List CelestialBody) :=
  (List.range bs.length).foldlM (stepOneBody G dt showTrails) bs

/-- The per-particle work of `UpdateParticlePhysics`: sum the force from
every massive object, integrate velocity then position, and deactivate
the particle when its distance from the window center exceeds
`windowSize.x * 1.5`.  The source compares `glm::length(pos - center)`
against the radius; both sides being nonnegative reals, the embedding
compares the squares to stay in `ℚ`. -/
def particlePhysicsStep (G winW winH dt : ℚ) (bodies : List CelestialBody)
    (p : Graphics.Particle) : Option Graphics.Particle := do
  let totalForce ← bodies.foldlM
    (fun acc b =>
      (CalculateGravitationalForce G p.position b.position p.mass
          b.mass).map (fun f => acc + f))
    ((0 : ℚ), (0 : ℚ))
  let acceleration ← vdiv totalForce p.mass
  let v2 := p.velocity + smul dt acceleration
  let pos2 := p.position + smul dt v2
  let center : Vec2 := (winW * (1 / 2), winH * (1 / 2))
  let diff := pos2 - center
  some { p with velocity := v2, position := pos2
                active :=
                  if dot diff diff > (winW * (3 / 2)) * (winW * (3 / 2))
                  then false else p.active }

/-- One index `i` of the `UpdateParticlePhysics` loop: inactive slots are
skipped (`continue`), active ones are updated in place. -/
def updateOneParticle (G winW winH dt : ℚ) (bodies : List CelestialBody)
    (ps : List Graphics.Particle) (i : ℕ) : Option (List Graphics.Particle) :=
  let p := ps.getD i Graphics.defaultParticle
  if p.active = false then some ps
  else (particlePhysicsStep G winW winH dt bodies p).map (fun q => ps.set i q)

/-- `batchSize` in `UpdatePhysics`: `particles.size() / numThreads`
(integer division). -/
def batchSize (P W : ℕ) : ℕ := P / W

/-- The start of worker `i`'s index range in `UpdatePhysics`:
`i * batchSize`. -/
def rangeStart (P W i : ℕ) : ℕ := i * batchSize P W

/-- The end (exclusive) of worker `i`'s index range in `UpdatePhysics`:
the last worker absorbs the remainder up to `particles.size()`. -/
def rangeEnd (P W i : ℕ) : ℕ :=
  if i = W - 1 then P else (i + 1) * batchSize P W

/-- `Modes::ParticleGalaxyMode::UpdateParticlePhysics(start, end, dt)`:
`for (i = start; i < end && i < particles.size(); ++i)`. -/
def UpdateParticlePhysics (G winW winH dt : ℚ) (bodies : List CelestialBody)
    (start fin : ℕ) (ps : List Graphics.Particle) :
    Option (List Graphics.Particle) :=
  (List.range' start (min fin ps.length - start)).foldlM
    (updateOneParticle G winW winH dt bodies) ps

/-- The parallel particle phase of `UpdatePhysics`: one
`UpdateParticlePhysics` task per worker over the ranges
`[rangeStart, rangeEnd)`.  The tasks run concurrently in the source, but
each writes only inside its own range and the ranges are pairwise
disjoint (proved below), so the parallel execution is equivalent to this
sequential composition. -/
def particlePhase (G winW winH dt : ℚ) (bodies : List CelestialBody)
    (numThreads : ℕ) (ps : List Graphics.Particle) :
    Option (List Graphics.Particle) :=
  (List.range numThreads).foldlM
    (fun arr i =>
      UpdateParticlePhysics G winW winH dt bodies
        (rangeStart ps.length numThreads i) (rangeEnd ps.length numThreads i)
        arr)
    ps

/-- The `Modes::ParticleGalaxyMode` state read and written by `Update`,
`UpdatePhysics` and `HandleInput`.  `gravity`/`damping` are the
`Graphics::ParticleSystem` members (set to `(0,0)` and `1.0` by
`ParticleGalaxyMode::Initialize`); `winW`/`winH` is the render-window
size; `numThreads` is the worker count of the mode's thread pool. -/
structure GalaxyState where
  particles : List Graphics.Particle
  massiveObjects : List CelestialBody
  timeDilation : ℚ
  gravitationalConstant : ℚ
  paused : Bool
  demoMode : Bool
  demoTimer : ℚ
  currentPreset : ℕ
  showTrails : Bool
  winW : ℚ
  winH : ℚ
  gravity : Vec2
  damping : ℚ
  numThreads : ℕ
deriving DecidableEq

/-- `Modes::ParticleGalaxyMode::UpdatePhysics`: the serial body-body
phase followed by the particle phase (which reads the post-update body
positions), joined before returning. -/
def UpdatePhysics (s : GalaxyState) (dt : ℚ) : Option GalaxyState := do
  let bs ← bodyPhase s.gravitationalConstant dt s.showTrails s.massiveObjects
  let ps ← particlePhase s.gravitationalConstant s.winW s.winH dt bs
    s.numThreads s.particles
  some { s with massiveObjects := bs, particles := ps }

/-- `Modes::ParticleGalaxyMode::NUM_PRESETS`. -/
def NUM_PRESETS : ℕ := 5

/-- `Modes::ParticleGalaxyMode::Update(deltaTime)`: return immediately
when `paused_`; otherwise advance the demo-mode timer (switching preset
when it expires — `CreateGalaxyPreset` draws on a `std::mt19937`, so the
reseeding is abstracted as the parameter `createPreset`), scale the delta
time by the time dilation, run `UpdatePhysics`, then the particle
system's own update pass. -/
def Update (createPreset : ℕ → GalaxyState → GalaxyState)
    (demoDuration : ℚ) (s : GalaxyState) (dt : ℚ) : Option GalaxyState :=
  if s.paused then some s
  else
    let s1 :=
      if s.demoMode then
        if s.demoTimer + dt ≥ demoDuration then
          createPreset ((s.currentPreset + 1) % NUM_PRESETS)
            { s with demoTimer := 0
                     currentPreset := (s.currentPreset + 1) % NUM_PRESETS }
        else { s with demoTimer := s.demoTimer + dt }
      else s
    let sdt := dt * s1.timeDilation
    (UpdatePhysics s1 sdt).map fun s2 =>
      { s2 with particles :=
          Graphics.particleSystemUpdate s2.gravity s2.damping sdt s2.particles }

/-- The per-particle effect of one whole frame of
`ParticleGalaxyMode::Update` on a single particle slot: the
`UpdateParticlePhysics` pass (active slots only), then the
`ParticleSystem::Update` pass (active slots only).  Each pass touches
every slot exactly once per frame — the physics ranges partition the
buffer (proved below). -/
def galaxyParticleFrame (G winW winH dt : ℚ) (bodies : List CelestialBody)
    (gravity : Vec2) (damping : ℚ) (p : Graphics.Particle) :
    Option Graphics.Particle :=
  (if p.active then particlePhysicsStep G winW winH dt bodies p
   else some p).map
    fun p1 => if p1.active then Graphics.UpdateParticle gravity damping dt p1
              else p1

/-- `glm::clamp(x, lo, hi)` = `min(max(x, lo), hi)`. -/
def glmClamp (x lo hi : ℚ) : ℚ := min (max x lo) hi

/-- The input events `Modes::ParticleGalaxyMode::HandleInput` switches
on. -/
inductive GalaxyInputEvent where
  | keyPressed (key : ℕ)
  | mouseButtonPressed (x y : ℚ)
  | mouseWheelScrolled (delta : ℚ)
  | otherEvent

/-- The effect of one `HandleInput` call on `timeDilation_`.  Only the
`MouseWheelScrolled` branch writes the field (multiply by 1.1 or 0.9 by
scroll direction, then `glm::clamp` to `[0.1, 10.0]`); every other
branch — preset keys, pause, trails, grid, reset, add-body — leaves it
unchanged. -/
def handleInputTimeDilation (td : ℚ) (e : GalaxyInputEvent) : ℚ :=
  match e with
  | .mouseWheelScrolled delta =>
    glmClamp (td * (if delta > 0 then 11 / 10 else 9 / 10)) (1 / 10) 10
  | _ => td

/-- The initial value of `timeDilation_` (member initializer
`float timeDilation_ = 1.0f`). -/
def initialTimeDilation : ℚ := 1

/-- The time-dilation factor after a sequence of input events, starting
from the member-initialized value. -/
def timeDilationAfter (evs : List GalaxyInputEvent) : ℚ :=
  evs.foldl handleInputTimeDilation initialTimeDilation

end Modes

/-- The spec's closed-form scenario: two bodies of mass 100 at rest,
separated by 200 units along x, G = 100 (the mode's default), default
flags (`showTrails_ = true`, not paused), window 800×600, particle
system as configured by `Initialize` (gravity zero, damping 1), four
workers. -/
def twoBodyGalaxy : Modes.GalaxyState :=
  { particles := []
    massiveObjects :=
      [ { position := ((0 : ℚ), (0 : ℚ)), velocity := ((0 : ℚ), (0 : ℚ))
          mass := 100, radius := 8, trail := [] }
      , { position := ((200 : ℚ), (0 : ℚ)), velocity := ((0 : ℚ), (0 : ℚ))
          mass := 100, radius := 8, trail := [] } ]
    timeDilation := 1, gravitationalConstant := 100
    paused := false, demoMode := false, demoTimer := 0, currentPreset := 0
    showTrails := true, winW := 800, winH := 600
    gravity := ((0 : ℚ), (0 : ℚ)), damping := 1, numThreads := 4 }

/-- A particle placed beyond the culling radius of an 800-wide window
(distance 1210 > 1200 from the center (400, 300)) with zero velocity. -/
def farParticle : Graphics.Particle :=
  { position := ((1610 : ℚ), (300 : ℚ)), velocity := ((0 : ℚ), (0 : ℚ))
    acceleration := ((0 : ℚ), (0 : ℚ)), colorA := 255, size := 1
    lifetime := 1000000, age := 0, mass := 1, active := true }

/-- A massive body placed 5 units inward of `farParticle`, strong enough
to pull it back inside the culling radius within one step. -/
def pullBody : Modes.CelestialBody :=
  { position := ((1605 : ℚ), (300 : ℚ)), velocity := ((0 : ℚ), (0 : ℚ))
    mass := 9900, radius := 8, trail := [] }

/-- A galaxy state with trails toggled off and a single body at rest:
`UpdatePhysics` leaves its (empty) trail empty. -/
def trailOffGalaxy : Modes.GalaxyState :=
  { particles := []
    massiveObjects :=
      [ { position := ((5 : ℚ), (5 : ℚ)), velocity := ((0 : ℚ), (0 : ℚ))
          mass := 100, radius := 8, trail := [] } ]
    timeDilation := 1, gravitationalConstant := 100
    paused := false, demoMode := false, demoTimer := 0, currentPreset := 0
    showTrails := false, winW := 800, winH := 600
    gravity := ((0 : ℚ), (0 : ℚ)), damping := 1, numThreads := 4 }

/-! ## Square-root evaluation lemmas -/

theorem sqrt_rec_step (n : ℕ) :
    Nat.sqrt n =
      (if (2 * Nat.sqrt (n / 4) + 1) * (2 * Nat.sqrt (n / 4) + 1) ≤ n
       then 2 * Nat.sqrt (n / 4) + 1 else 2 * Nat.sqrt (n / 4)) := by
  have s := Nat.sqrt (n / 4)
  have hlo : 2 * Nat.sqrt (n / 4) ≤ Nat.sqrt n := by
    rw [Nat.le_sqrt]
    have h1 : Nat.sqrt (n / 4) * Nat.sqrt (n / 4) ≤ n / 4 := Nat.sqrt_le _
    have h2 : n / 4 * 4 ≤ n := Nat.div_mul_le_self n 4
    nlinarith
  have hhi : Nat.sqrt n < 2 * Nat.sqrt (n / 4) + 2 := by
    rw [Nat.sqrt_lt]
    have h1 : n / 4 < (Nat.sqrt (n / 4) + 1) * (Nat.sqrt (n / 4) + 1) :=
      Nat.lt_succ_sqrt _
    have h2 : n < n / 4 * 4 + 4 := by
      have ha := Nat.div_add_mod n 4
      have hb : n % 4 < 4 := Nat.mod_lt n (by omega)
      omega
    nlinarith
  by_cases hc : (2 * Nat.sqrt (n / 4) + 1) * (2 * Nat.sqrt (n / 4) + 1) ≤ n
  · have : 2 * Nat.sqrt (n / 4) + 1 ≤ Nat.sqrt n := Nat.le_sqrt.mpr hc
    simp only [hc, if_true]
    omega
  · have : ¬ (2 * Nat.sqrt (n / 4) + 1 ≤ Nat.sqrt n) := fun h =>
      hc (le_trans (Nat.mul_self_le_mul_self h) (Nat.sqrt_le n))
    simp only [hc, if_false]
    omega

theorem natSqrtAux_eq_sqrt : ∀ fuel n, n ≤ fuel → natSqrtAux fuel n = Nat.sqrt n := by
  intro fuel
  induction fuel with
  | zero =>
    intro n hn
    have : n = 0 := Nat.le_zero.mp hn
    simp [natSqrtAux, this]
  | succ f ih =>
    intro n hn
    rcases Nat.eq_zero_or_pos n with h0 | hpos
    · subst h0
      simp [natSqrtAux]
    · have hrec : natSqrtAux f (n / 4) = Nat.sqrt (n / 4) := by
        have : n / 4 < n := Nat.div_lt_self hpos (by omega)
        exact ih (n / 4) (by omega)
      have hne : ¬ n = 0 := by omega
      show (if n = 0 then 0
            else
              let r := 2 * natSqrtAux f (n / 4);
              if (r + 1) * (r + 1) ≤ n then r + 1 else r) = Nat.sqrt n
      simp only [hne, if_false, hrec]
      exact (sqrt_rec_step n).symm

theorem natSqrt_eq_sqrt (n : ℕ) : natSqrt n = Nat.sqrt n :=
  natSqrtAux_eq_sqrt n n le_rfl

/-! ## Range-partition lemmas (C1) -/

theorem rangeEnd_le (P W i : ℕ) (hi : i < W) : Modes.rangeEnd P W i ≤ P := by
  unfold Modes.rangeEnd Modes.batchSize
  split
  · exact le_rfl
  · have h1 : i + 1 ≤ W := hi
    calc (i + 1) * (P / W) ≤ W * (P / W) := Nat.mul_le_mul_right _ h1
    _ = P / W * W := Nat.mul_comm _ _
    _ ≤ P := Nat.div_mul_le_self P W

theorem rangeEnd_le_rangeStart (P W i j : ℕ) (hij : i < j) (hj : j < W) :
    Modes.rangeEnd P W i ≤ Modes.rangeStart P W j := by
  unfold Modes.rangeEnd Modes.rangeStart Modes.batchSize
  have hiW : ¬ i = W - 1 := by omega
  simp only [hiW, if_false]
  exact Nat.mul_le_mul_right _ (by omega)

/-- C1: For every particle-buffer length P and worker count W ≥ 1, the W
contiguous index ranges computed by `UpdatePhysics` (range i is
`[i*(P/W), (i+1)*(P/W))` for `i < W-1`, and the last range runs to P)
cover exactly `[0, P)` — every index below P lies in exactly one range,
and no range reaches an index outside `[0, P)`. -/
theorem updatePhysics_ranges_partition (P W : ℕ) (hW : 1 ≤ W) :
    (∀ k, k < P ↔ ∃ i, i < W ∧
      Modes.rangeStart P W i ≤ k ∧ k < Modes.rangeEnd P W i) ∧
    (∀ i j k, i < W → j < W →
      Modes.rangeStart P W i ≤ k → k < Modes.rangeEnd P W i →
      Modes.rangeStart P W j ≤ k → k < Modes.rangeEnd P W j → i = j) := by
  constructor
  · intro k
    constructor
    · intro hk
      by_cases hcase : k < (W - 1) * (P / W)
      · have hb : 0 < P / W := by
          rcases Nat.eq_zero_or_pos (P / W) with h0 | h
          · rw [h0, Nat.mul_zero] at hcase; omega
          · exact h
        refine ⟨k / (P / W), ?_, ?_, ?_⟩
        · have : k / (P / W) < W - 1 :=
            (Nat.div_lt_iff_lt_mul hb).mpr hcase
          omega
        · exact Nat.div_mul_le_self k (P / W)
        · have hne : ¬ k / (P / W) = W - 1 := by
            have : k / (P / W) < W - 1 :=
              (Nat.div_lt_iff_lt_mul hb).mpr hcase
            omega
          unfold Modes.rangeEnd Modes.batchSize
          simp only [hne, if_false]
          have h1 : P / W * (k / (P / W)) + k % (P / W) = k :=
            Nat.div_add_mod k (P / W)
          have h2 : k % (P / W) < P / W := Nat.mod_lt _ hb
          calc k = P / W * (k / (P / W)) + k % (P / W) := h1.symm
          _ < P / W * (k / (P / W)) + P / W := by omega
          _ = (k / (P / W) + 1) * (P / W) := by ring
      · refine ⟨W - 1, by omega, ?_, ?_⟩
        · exact Nat.le_of_not_lt hcase
        · unfold Modes.rangeEnd
          simp only [if_pos rfl]
          exact hk
    · rintro ⟨i, hi, _, hk⟩
      exact lt_of_lt_of_le hk (rangeEnd_le P W i hi)
  · intro i j k hi hj h1 h2 h3 h4
    rcases lt_trichotomy i j with hij | hij | hij
    · have := rangeEnd_le_rangeStart P W i j hij hj
      omega
    · exact hij
    · have := rangeEnd_le_rangeStart P W j i hij hi
      omega

/-- Witness for C1 at P = 7, W = 3 (ranges [0,2), [2,4), [4,7)): index 5
lies in one of the three ranges. -/
theorem updatePhysics_ranges_partition_witness :
    ∃ i, i < 3 ∧ Modes.rangeStart 7 3 i ≤ 5 ∧ 5 < Modes.rangeEnd 7 3 i :=
  ((updatePhysics_ranges_partition 7 3 (by decide)).1 5).mp (by decide)

/-! ## Gravitational-force finiteness (C2) -/

/-- C2 (failing case): at exactly coincident positions the direction
vector is zero, `glm::normalize` divides the zero vector by its zero
length, and the returned force is NaN (`none`) — the
`MIN_DISTANCE_SQ` floor guards only the magnitude division, not the
normalization, contradicting the claim (and the source comment
"Prevent division by zero"). -/
theorem calcForce_coincident_is_nan (G : ℚ) (p : Vec2) (m1 m2 : ℚ) :
    Modes.CalculateGravitationalForce G p p m1 m2 = none := by
  simp [Modes.CalculateGravitationalForce, Modes.glmNormalize, dot,
    Prod.fst_sub, Prod.snd_sub, Prod.fst_zero, Prod.snd_zero]

/-! ## Task-scheduler submission (C6) -/

/-- C6: the destructor's first action sets the stopping flag; a `Submit`
that observes the flag throws ("Submit on stopped ThreadPool") with the
task queue untouched — the task is never silently dropped — and a
`Submit` before shutdown appends the task to the back of the queue and
returns the handle (future) bound to it. -/
theorem submit_rejects_after_shutdown {τ : Type} (s : Core.ThreadPoolState τ)
    (t : τ) :
    ((Core.destructorSignalStop s).stopping = true) ∧
    (s.stopping = true →
      Core.Submit s t = (Except.error "Submit on stopped ThreadPool", s)) ∧
    (s.stopping = false →
      Core.Submit s t = (Except.ok t, { s with tasks := s.tasks ++ [t] })) := by
  refine ⟨rfl, fun h => ?_, fun h => ?_⟩ <;> simp [Core.Submit, h]

/-- Witness for C6: a concrete stopped pool rejects a task and keeps its
queue. -/
theorem submit_rejects_after_shutdown_witness :
    Core.Submit (⟨true, [3, 4]⟩ : Core.ThreadPoolState ℕ) 7 =
      (Except.error "Submit on stopped ThreadPool", ⟨true, [3, 4]⟩) :=
  (submit_rejects_after_shutdown ⟨true, [3, 4]⟩ 7).2.1 rfl

/-! ## Time-dilation clamping (C8) -/

theorem handleInputTimeDilation_mem (td : ℚ) (e : Modes.GalaxyInputEvent)
    (h1 : 1 / 10 ≤ td) (h2 : td ≤ 10) :
    1 / 10 ≤ Modes.handleInputTimeDilation td e ∧
      Modes.handleInputTimeDilation td e ≤ 10 := by
  cases e <;>
    simp only [Modes.handleInputTimeDilation, Modes.glmClamp]
  case mouseWheelScrolled delta =>
    constructor
    · exact le_min (le_max_right _ _) (by norm_num)
    · exact min_le_right _ _
  all_goals exact ⟨h1, h2⟩

/-- C8: the time-dilation factor starts at 1.0 and, after any sequence
of input events (each mouse-wheel event multiplies it by 1.1 or 0.9 and
clamps to [0.1, 10.0]; every other event leaves it unchanged), remains
within [0.1, 10.0] — in particular always positive. -/
theorem timeDilation_always_clamped (evs : List Modes.GalaxyInputEvent) :
    1 / 10 ≤ Modes.timeDilationAfter evs ∧ Modes.timeDilationAfter evs ≤ 10 := by
  unfold Modes.timeDilationAfter
  have main : ∀ (l : List Modes.GalaxyInputEvent) (td : ℚ),
      1 / 10 ≤ td → td ≤ 10 →
      1 / 10 ≤ l.foldl Modes.handleInputTimeDilation td ∧
        l.foldl Modes.handleInputTimeDilation td ≤ 10 := by
    intro l
    induction l with
    | nil => intro td h1 h2; exact ⟨h1, h2⟩
    | cons e l ih =>
      intro td h1 h2
      rw [List.foldl_cons]
      have := handleInputTimeDilation_mem td e h1 h2
      exact ih _ this.1 this.2
  exact main evs Modes.initialTimeDilation (by norm_num [Modes.initialTimeDilation])
    (by norm_num [Modes.initialTimeDilation])

/-! ## Paused update is a no-op (C10) -/

/-- C10: while `paused_` is set, `Update(deltaTime)` returns immediately
for every delta time, leaving the whole mode state — particles, massive
bodies, parameters — unchanged. -/
theorem update_paused_is_noop (createPreset : ℕ → Modes.GalaxyState → Modes.GalaxyState)
    (demoDuration : ℚ) (s : Modes.GalaxyState) (dt : ℚ) (h : s.paused = true) :
    Modes.Update createPreset demoDuration s dt = some s := by
  simp [Modes.Update, h]

/-- Witness for C10 at a concrete paused state. -/
theorem update_paused_is_noop_witness :
    Modes.Update (fun _ st => st) 10 { twoBodyGalaxy with paused := true }
        (1 / 60) = some { twoBodyGalaxy with paused := true } :=
  update_paused_is_noop _ 10 _ (1 / 60) rfl

/-! ## Two-body single-step scenario (C3) -/

set_option maxRecDepth 8000 in
/-- C3 (counterexample): in the spec scenario (masses 100, separation
200 along x, G = 100, dt = 1/60) the claimed speed for *each* body is
`G·100·100/200² / 100 · dt = 1/240`; after one `UpdatePhysics` the
*second* body's squared speed is not `(1/240)²` — its force is computed
against the first body's already-updated position, because the body loop
integrates in place in index order. -/
theorem twoBody_second_speed_differs :
    ((Modes.UpdatePhysics twoBodyGalaxy (1 / 60)).map
      (fun s => dot (s.massiveObjects.getD 1 Modes.defaultBody).velocity
                    (s.massiveObjects.getD 1 Modes.defaultBody).velocity))
      ≠ some ((1 / 240 : ℚ) * (1 / 240)) :=
  of_decide_eq_true (by with_unfolding_all rfl)

set_option maxRecDepth 8000 in
/-- C3 (amended): after one `UpdatePhysics(1/60)` on the two-body
scenario, the first body's velocity is exactly `(1/240, 0)` — magnitude
`G·100·100/200² / 100 · dt`, directed toward the second body — while the
second body's velocity is directed toward the first but has magnitude
`34560000000/8294394240001 = G·100·100/d² / 100 · dt` for
`d = 200 - 1/14400`, the distance to the first body's already-updated
position (bodies are integrated sequentially in place). -/
theorem twoBody_velocities_after_one_step :
    (Modes.UpdatePhysics twoBodyGalaxy (1 / 60)).map
      (fun s => ((s.massiveObjects.getD 0 Modes.defaultBody).velocity,
                 (s.massiveObjects.getD 1 Modes.defaultBody).velocity))
    = some ((((1 : ℚ) / 240, (0 : ℚ)),
             ((-(34560000000 / 8294394240001 : ℚ)), (0 : ℚ)))) := by
  with_unfolding_all rfl

/-! ## Empty body registry (C4, C5) -/

theorem pair_zero_eq_zero : (((0 : ℚ), (0 : ℚ)) : Vec2) = (0 : Vec2) := rfl

theorem smul_zero_vec (c : ℚ) : smul c (0 : Vec2) = (0 : Vec2) := by
  simp [smul]

theorem one_smul_vec (v : Vec2) : smul 1 v = v := by
  simp [smul]

theorem particlePhysicsStep_empty (G winW winH dt : ℚ) (p : Graphics.Particle)
    (hm : p.mass ≠ 0) :
    Modes.particlePhysicsStep G winW winH dt [] p =
      some { p with
        position := p.position + smul dt p.velocity
        active :=
          if dot (p.position + smul dt p.velocity - (winW * (1 / 2), winH * (1 / 2)))
                 (p.position + smul dt p.velocity - (winW * (1 / 2), winH * (1 / 2)))
               > (winW * (3 / 2)) * (winW * (3 / 2))
          then false else p.active } := by
  unfold Modes.particlePhysicsStep
  have hv : vdiv (0 : Vec2) p.mass = some (0 : Vec2) := by
    simp [vdiv, hm, Prod.mk_eq_zero]
  simp only [List.foldlM_nil, pure, Option.bind_eq_bind, pair_zero_eq_zero,
    Option.some_bind, hv, smul_zero_vec, add_zero]

theorem updateParticle_velocity_no_accel (dt : ℚ) (p : Graphics.Particle)
    (hacc : p.acceleration = ((0 : ℚ), (0 : ℚ))) :
    (Graphics.UpdateParticle ((0 : ℚ), (0 : ℚ)) 1 dt p).velocity = p.velocity := by
  unfold Graphics.UpdateParticle
  dsimp only
  split
  · rfl
  · dsimp only
    simp only [hacc, pair_zero_eq_zero, add_zero, smul_zero_vec, one_smul_vec]

/-- C4: with an empty body registry, a full frame of updates on any
particle that is active before the step (physics phase followed by the
particle system's own pass, with the mode's configuration
`gravity = (0,0)`, `damping = 1.0` set by `Initialize`, and the
`acceleration = (0,0)` every particle of this mode carries) leaves the
particle's velocity exactly unchanged, for every dt > 0. -/
theorem no_bodies_velocity_unchanged (G winW winH dt : ℚ)
    (p : Graphics.Particle) (hdt : 0 < dt) (hm : p.mass ≠ 0)
    (hacc : p.acceleration = ((0 : ℚ), (0 : ℚ))) (hact : p.active = true) :
    ∃ q, Modes.galaxyParticleFrame G winW winH dt [] ((0 : ℚ), (0 : ℚ)) 1 p
          = some q ∧ q.velocity = p.velocity := by
  unfold Modes.galaxyParticleFrame
  rw [hact, particlePhysicsStep_empty G winW winH dt p hm]
  simp only [if_true, Option.map_some]
  by_cases hcond :
      dot (p.position + smul dt p.velocity - (winW * (1 / 2), winH * (1 / 2)))
          (p.position + smul dt p.velocity - (winW * (1 / 2), winH * (1 / 2)))
        > (winW * (3 / 2)) * (winW * (3 / 2))
  · simp only [if_pos hcond]
    exact ⟨_, rfl, rfl⟩
  · simp only [if_neg hcond, hact]
    exact ⟨_, rfl, updateParticle_velocity_no_accel dt _ hacc⟩

/-- Witness for C4: a particle with velocity (3, 4) keeps it across a
step with no bodies. -/
theorem no_bodies_velocity_unchanged_witness :
    ∃ q, Modes.galaxyParticleFrame 100 800 600 (1 / 60) [] ((0 : ℚ), (0 : ℚ)) 1
          { Graphics.defaultParticle with
              velocity := ((3 : ℚ), (4 : ℚ)), lifetime := 10 }
        = some q ∧
      q.velocity = ({ Graphics.defaultParticle with
              velocity := ((3 : ℚ), (4 : ℚ)), lifetime := 10 } :
            Graphics.Particle).velocity :=
  no_bodies_velocity_unchanged 100 800 600 (1 / 60) _ (by norm_num)
    (by norm_num [Graphics.defaultParticle]) rfl rfl

/-- C5 (counterexample): `farParticle` sits beyond the culling radius
(squared distance 1210² > 1200²) with zero velocity, yet with `pullBody`
present it is still active after one physics step — the body's pull
moves it back inside the radius (to x = 1599 < 1200 + 400) before the
culling check runs, so "inactive after exactly one step regardless of
the body configuration" fails. -/
theorem far_particle_survives_with_body :
    dot (farParticle.position - ((800 : ℚ) * (1 / 2), (600 : ℚ) * (1 / 2)))
        (farParticle.position - ((800 : ℚ) * (1 / 2), (600 : ℚ) * (1 / 2)))
      > ((800 : ℚ) * (3 / 2)) * ((800 : ℚ) * (3 / 2)) ∧
    farParticle.velocity = ((0 : ℚ), (0 : ℚ)) ∧
    (Modes.particlePhysicsStep 100 800 600 (1 / 60) [pullBody]
        farParticle).map Graphics.Particle.active = some true :=
  of_decide_eq_true (by with_unfolding_all rfl)

/-- C5 (amended): a particle beyond the culling radius with zero
velocity is inactive after exactly one physics step when the body
registry is empty (with bodies present, a strong enough net pull can
return it inside the radius within the same step, leaving it active). -/
theorem far_particle_culled_no_bodies (G winW winH dt : ℚ)
    (p : Graphics.Particle) (hm : p.mass ≠ 0)
    (hv : p.velocity = ((0 : ℚ), (0 : ℚ))) (hact : p.active = true)
    (hfar : dot (p.position - (winW * (1 / 2), winH * (1 / 2)))
                (p.position - (winW * (1 / 2), winH * (1 / 2)))
              > (winW * (3 / 2)) * (winW * (3 / 2))) :
    ∃ q, Modes.particlePhysicsStep G winW winH dt [] p = some q ∧
      q.active = false ∧ q.position = p.position ∧ q.velocity = p.velocity := by
  have hpos : p.position + smul dt p.velocity = p.position := by
    rw [hv, pair_zero_eq_zero, smul_zero_vec, add_zero]
  rw [particlePhysicsStep_empty G winW winH dt p hm]
  refine ⟨_, rfl, ?_, ?_, rfl⟩
  · show (if dot (p.position + smul dt p.velocity - (winW * (1 / 2), winH * (1 / 2)))
               (p.position + smul dt p.velocity - (winW * (1 / 2), winH * (1 / 2)))
             > (winW * (3 / 2)) * (winW * (3 / 2))
          then false else p.active) = false
    rw [hpos, if_pos hfar]
  · show p.position + smul dt p.velocity = p.position
    exact hpos

/-- Witness for C5's amended theorem at `farParticle` with no bodies. -/
theorem far_particle_culled_no_bodies_witness :
    ∃ q, Modes.particlePhysicsStep 100 800 600 (1 / 60) [] farParticle
          = some q ∧
      q.active = false ∧ q.position = farParticle.position ∧
      q.velocity = farParticle.velocity :=
  far_particle_culled_no_bodies 100 800 600 (1 / 60) farParticle
    (by norm_num [farParticle]) rfl rfl
    (of_decide_eq_true (by with_unfolding_all rfl))

/-! ## Trail bookkeeping (C7) -/

theorem updateTrail_length_le (st : Bool) (tr : List Vec2) (pos : Vec2)
    (h : tr.length ≤ Modes.MAX_TRAIL_LENGTH) :
    (Modes.updateTrail st tr pos).length ≤ Modes.MAX_TRAIL_LENGTH := by
  unfold Modes.updateTrail
  have hlen : (tr ++ [pos]).length = tr.length + 1 := by simp
  split
  · dsimp only
    split
    · simp only [List.length_tail, hlen]
      omega
    · rename_i hle
      rw [Nat.not_lt, hlen] at hle
      omega
  · exact h

theorem getD_trail_bound (bs : List Modes.CelestialBody) (i : ℕ)
    (hb : ∀ b ∈ bs, b.trail.length ≤ Modes.MAX_TRAIL_LENGTH) :
    (bs.getD i Modes.defaultBody).trail.length ≤ Modes.MAX_TRAIL_LENGTH := by
  by_cases hi : i < bs.length
  · have heq : bs.getD i Modes.defaultBody = bs.get ⟨i, hi⟩ := by
      simp [List.getD_eq_getElem?_getD, List.getElem?_eq_getElem hi,
        List.get_eq_getElem]
    rw [heq]
    exact hb _ (List.get_mem bs i hi)
  · have heq : bs.getD i Modes.defaultBody = Modes.defaultBody := by
      simp [List.getD_eq_getElem?_getD,
        List.getElem?_eq_none (Nat.le_of_not_lt hi)]
    rw [heq]
    simp [Modes.defaultBody, Modes.MAX_TRAIL_LENGTH]

theorem stepOneBody_trail_bound (G dt : ℚ) (st : Bool)
    (bs bs2 : List Modes.CelestialBody) (i : ℕ)
    (h : Modes.stepOneBody G dt st bs i = some bs2)
    (hb : ∀ b ∈ bs, b.trail.length ≤ Modes.MAX_TRAIL_LENGTH) :
    ∀ b ∈ bs2, b.trail.length ≤ Modes.MAX_TRAIL_LENGTH := by
  unfold Modes.stepOneBody at h
  rw [Option.bind_eq_bind, Option.bind_eq_some] at h
  obtain ⟨tf, _, h⟩ := h
  rw [Option.bind_eq_some] at h
  obtain ⟨acc, _, h⟩ := h
  dsimp only at h
  cases h
  intro b hbmem
  rcases List.mem_or_eq_of_mem_set hbmem with hmem | heq
  · exact hb _ hmem
  · subst heq
    exact updateTrail_length_le st _ _ (getD_trail_bound bs i hb)

theorem bodyFold_trail_bound (G dt : ℚ) (st : Bool) :
    ∀ (is : List ℕ) (bs bs2 : List Modes.CelestialBody),
      is.foldlM (Modes.stepOneBody G dt st) bs = some bs2 →
      (∀ b ∈ bs, b.trail.length ≤ Modes.MAX_TRAIL_LENGTH) →
      ∀ b ∈ bs2, b.trail.length ≤ Modes.MAX_TRAIL_LENGTH := by
  intro is
  induction is with
  | nil =>
    intro bs bs2 h hb
    rw [List.foldlM_nil] at h
    cases h
    exact hb
  | cons i is ih =>
    intro bs bs2 h hb
    rw [List.foldlM_cons] at h
    obtain ⟨bs1, h1, h2⟩ := Option.bind_eq_some.mp h
    exact ih bs1 bs2 h2 (stepOneBody_trail_bound G dt st bs bs1 i h1 hb)

/-- C7: after an `UpdatePhysics` call on a state whose trails respect
the cap, every body's trail still holds at most `MAX_TRAIL_LENGTH = 50`
positions; and the trail update itself (with trails shown) appends the
new position at the end and, once the cap is exceeded, drops exactly the
oldest entry — the result is the suffix of `trail ++ [pos]` of length
`min (len+1) 50`, ending in the new position, preserving FIFO order. -/
theorem updatePhysics_trail_bounded (s : Modes.GalaxyState) (dt : ℚ)
    (s2 : Modes.GalaxyState)
    (hb : ∀ b ∈ s.massiveObjects, b.trail.length ≤ Modes.MAX_TRAIL_LENGTH)
    (h : Modes.UpdatePhysics s dt = some s2) :
    (∀ b ∈ s2.massiveObjects, b.trail.length ≤ Modes.MAX_TRAIL_LENGTH) ∧
    (∀ (tr : List Vec2) (pos : Vec2), tr.length ≤ Modes.MAX_TRAIL_LENGTH →
      Modes.updateTrail true tr pos =
        (tr ++ [pos]).drop (tr.length + 1 - Modes.MAX_TRAIL_LENGTH) ∧
      (Modes.updateTrail true tr pos).getLast? = some pos ∧
      (Modes.updateTrail true tr pos).length =
        min (tr.length + 1) Modes.MAX_TRAIL_LENGTH) := by
  constructor
  · unfold Modes.UpdatePhysics Modes.bodyPhase at h
    rw [Option.bind_eq_bind, Option.bind_eq_some] at h
    obtain ⟨bs, hbs, h⟩ := h
    rw [Option.bind_eq_bind, Option.bind_eq_some] at h
    obtain ⟨ps, _, h⟩ := h
    cases h
    intro b hbmem
    exact bodyFold_trail_bound s.gravitationalConstant dt s.showTrails
      (List.range s.massiveObjects.length) s.massiveObjects bs hbs hb b hbmem
  · intro tr pos htr
    unfold Modes.updateTrail
    simp only [if_true]
    have hlenapp : (tr ++ [pos]).length = tr.length + 1 := by simp
    by_cases hlen : (tr ++ [pos]).length > Modes.MAX_TRAIL_LENGTH
    · rw [if_pos hlen]
      have hfifty : tr.length = Modes.MAX_TRAIL_LENGTH := by omega
      have hdrop : (tr ++ [pos]).tail = (tr ++ [pos]).drop 1 :=
        (List.drop_one _).symm
      refine ⟨?_, ?_, ?_⟩
      · rw [hdrop, hfifty]
        simp
      · rw [hdrop, List.drop_append_of_le_length
            (by rw [hfifty]; norm_num [Modes.MAX_TRAIL_LENGTH]),
          List.getLast?_concat]
      · rw [List.length_tail, hlenapp]
        omega
    · rw [if_neg hlen]
      rw [Nat.not_lt, hlenapp] at hlen
      refine ⟨?_, List.getLast?_concat _, ?_⟩
      · rw [Nat.sub_eq_zero_of_le (by omega), List.drop_zero]
      · rw [hlenapp]
        omega

/-- Witness for C7 at a concrete state (one body, empty trail): the
trail bound holds for that body after the step. -/
theorem updatePhysics_trail_bounded_witness :
    ({ position := ((5 : ℚ), (5 : ℚ)), velocity := ((0 : ℚ), (0 : ℚ))
       mass := 100, radius := 8, trail := [] } :
          Modes.CelestialBody).trail.length ≤ Modes.MAX_TRAIL_LENGTH :=
  (updatePhysics_trail_bounded trailOffGalaxy (1 / 60) trailOffGalaxy
    (of_decide_eq_true (by with_unfolding_all rfl))
    (by with_unfolding_all rfl)).1 _ (List.mem_singleton.mpr rfl)

/-- C7 (counterexample): with trails toggled off (`showTrails_ = false`,
the state every T-key toggle-off leaves, with all trails cleared), an
`UpdatePhysics` call does not append the body's new position: the trail
stays `[]` instead of becoming `[(5, 5)]` (the body's position, which is
unchanged — a single body feels no force). -/
theorem updatePhysics_trailOff_no_append :
    (Modes.UpdatePhysics trailOffGalaxy (1 / 60)).map
        (fun s => (s.massiveObjects.getD 0 Modes.defaultBody).trail)
      = some [] ∧
    some ([] : List Vec2) ≠ some [((5 : ℚ), (5 : ℚ))] :=
  ⟨by with_unfolding_all rfl, by simp⟩

/-! ## Particle emission (C9) -/

/-- C9 (amended): `EmitParticle`, given a template: when every slot is
active it changes no particle state (a no-op); when an inactive slot
exists it copies the template into the first such slot, marks it active
and resets its age to 0.  Its return type is `void`
(`EmitParticleRetType`), so capacity exhaustion is not signaled to the
caller. -/
theorem emitParticle_first_inactive_or_noop (t : Graphics.Particle)
    (ps : List Graphics.Particle) :
    ((∀ p ∈ ps, p.active = true) → Graphics.EmitParticle t ps = ps) ∧
    (∀ i : ℕ, ∀ hi : i < ps.length,
      (∀ j : ℕ, ∀ hj : j < ps.length, j < i →
        (ps.get ⟨j, hj⟩).active = true) →
      (ps.get ⟨i, hi⟩).active = false →
      Graphics.EmitParticle t ps =
        ps.set i { t with active := true, age := 0 }) := by
  induction ps with
  | nil =>
    exact ⟨fun _ => rfl, fun i hi => absurd hi (by simp)⟩
  | cons p ps ih =>
    constructor
    · intro h
      have hp : p.active = true := h p (List.mem_cons_self p ps)
      simp only [Graphics.EmitParticle, hp, if_true]
      rw [ih.1 (fun q hq => h q (List.mem_cons_of_mem p hq))]
    · intro i hi hprev hinact
      cases i with
      | zero =>
        have hp : p.active = false := by simpa using hinact
        simp only [Graphics.EmitParticle, hp, Bool.false_eq_true, if_false,
          List.set]
      | succ i =>
        have hp : p.active = true := by
          have := hprev 0 (by simp) (Nat.succ_pos i)
          simpa using this
        simp only [Graphics.EmitParticle, hp, if_true, List.set]
        have hi' : i < ps.length := by simpa using hi
        have harg : Graphics.EmitParticle t ps =
            ps.set i { t with active := true, age := 0 } := by
          refine ih.2 i hi' (fun j hj hji => ?_) (by simpa using hinact)
          have := hprev (j + 1) (by simpa using hj) (by omega)
          simpa using this
        rw [harg]

/-- Witness for C9: emitting into a buffer whose second slot is inactive
overwrites exactly that slot with the activated, age-reset template. -/
theorem emitParticle_first_inactive_or_noop_witness :
    Graphics.EmitParticle
        { Graphics.defaultParticle with
            velocity := ((9 : ℚ), (9 : ℚ)), age := 5, active := false }
        [{ Graphics.defaultParticle with colorA := 7 },
         { Graphics.defaultParticle with active := false }]
      = [{ Graphics.defaultParticle with colorA := 7 },
         { Graphics.defaultParticle with
             velocity := ((9 : ℚ), (9 : ℚ)), age := 0, active := true }] := by
  have := (emitParticle_first_inactive_or_noop
      { Graphics.defaultParticle with
          velocity := ((9 : ℚ), (9 : ℚ)), age := 5, active := false }
      [{ Graphics.defaultParticle with colorA := 7 },
       { Graphics.defaultParticle with active := false }]).2 1
      (by norm_num) (by decide) (by decide)
  simpa using this

/-- C9 (counterexample): the source's `EmitParticle` returns `void`, not
`bool` — so "returns false when every slot is active" is not what the
code does; capacity exhaustion is not signaled at all. -/
theorem emitParticle_ret_not_bool : Graphics.EmitParticleRetType ≠ Bool := by
  intro h
  unfold Graphics.EmitParticleRetType at h
  have hc : Fintype.card Unit = Fintype.card Bool :=
    Fintype.card_congr (Equiv.cast h)
  simp at hc

theorem ratSqrt_sq (a : ℚ) (ha : 0 ≤ a) : ratSqrt (a * a) = a := by
  have hnum : (a * a).num = a.num * a.num := Rat.mul_self_num a
  have hden : (a * a).den = a.den * a.den := Rat.mul_self_den a
  have h1 : ((a * a).num).natAbs = a.num.natAbs * a.num.natAbs := by
    rw [hnum, Int.natAbs_mul]
  unfold ratSqrt
  rw [h1, hden, natSqrt_eq_sqrt, natSqrt_eq_sqrt, Nat.sqrt_eq, Nat.sqrt_eq]
  have hnn : (0 : ℤ) ≤ a.num := Rat.num_nonneg.mpr ha
  have h2 : (a.num.natAbs : ℚ) = (a.num : ℚ) := by
    rw [Int.cast_natAbs, abs_of_nonneg hnn]
  rw [h2]
  exact_mod_cast Rat.num_div_den a
